import Mathlib

/-!
Shallow embedding of `src/main.py` (pipe network keep-alive / benchmarking
agent) and proofs about its claimed properties.

Modelling conventions:
* Each network interaction is an `HttpOutcome`: either a raised exception
  (timeout / connection error / any other `Exception`) or an HTTP response
  carrying a status code and the relevant parsed-JSON payload.
* Python functions that swallow every exception (`except Exception: pass`)
  become total Lean functions; a Python function whose uncaught exceptions
  can escape returns `Except`.
* Time stamps are natural numbers (seconds); probe latencies are integers
  in milliseconds, since the code uses the sentinel `-1`.  The event-loop
  clock used for latency is monotone, so a measured elapsed time is
  modelled as a `Nat`.
* File contents are `Option (List String)`: `none` models
  `FileNotFoundError`, `some lines` the file's lines.
-/

namespace Pipe

/-- Interval constants from `main.py` lines 21-23. -/
def HEARTBEAT_INTERVAL : Nat := 300

/-- `TEST_INTERVAL = 30 * 60` (line 22). -/
def TEST_INTERVAL : Nat := 30 * 60

/-- `RETRY_DELAY = 5` (line 23), the fixed sleep used in `get_ip` and
`fetch_points` exception handlers. -/
def RETRY_DELAY : Nat := 5

/-- Kinds of exception a network call can raise. `timeout` stands for
`asyncio.TimeoutError`, `connError` for `aiohttp.ClientConnectorError`,
`otherErr` for any other `Exception`. -/
inductive NetErr where
  | timeout
  | connError
  | otherErr
deriving DecidableEq, Repr

/-- Outcome of one HTTP request: either an exception raised during the
request (or while reading/parsing the body), or a response with its status
code and the parsed payload of type `α` (only inspected on status 200). -/
inductive HttpOutcome (α : Type) where
  | exn (e : NetErr)
  | resp (status : Nat) (body : α)
deriving DecidableEq, Repr

/-- Node record fetched from the backend `/nodes` endpoint:
`{node_id, ip}`. -/
structure Node where
  node_id : String
  ip : String
deriving DecidableEq, Repr

/-- Probe status. `online` renders as the string `"在线"` in the source,
`offline` as `"离线"`. -/
inductive Status where
  | online
  | offline
deriving DecidableEq, Repr

/-- The tuple `(node_id, ip, latency_value, status)` returned by
`test_single_node`. -/
structure ProbeResult where
  node_id : String
  ip : String
  latency : Int
  status : Status
deriving DecidableEq, Repr

/-- `str.strip()` on a character list: drop whitespace from both ends.
(Python also strips some more exotic Unicode whitespace; the difference is
immaterial here.) -/
def stripList (l : List Char) : List Char :=
  ((l.dropWhile Char.isWhitespace).reverse.dropWhile Char.isWhitespace).reverse

/-- Helper for `splitList`: accumulates the current field (reversed). -/
def splitListAux (sep : Char) : List Char → List Char → List (List Char)
  | [], acc => [acc.reverse]
  | c :: rest, acc =>
    if c = sep then acc.reverse :: splitListAux sep rest []
    else splitListAux sep rest (c :: acc)

/-- `str.split(sep)` for a one-character separator: splits at every
occurrence, keeping empty fields, and yields one field for the empty
string. -/
def splitList (sep : Char) (l : List Char) : List (List Char) :=
  splitListAux sep l []

/-- `line.strip()` as a `String` function. -/
def pyStrip (s : String) : String := String.mk (stripList s.toList)

/-- `line.split(',')` as a `String` function. -/
def pySplitComma (s : String) : List String := (splitList ',' s.toList).map String.mk

/-- Python-dict insertion `d[k] = v`: an existing key keeps its position
and gets the new value; a new key is appended.  Used to embed
`token_email_mapping[token] = email` (line 37). -/
def dictInsert : List (String × String) → String → String → List (String × String)
  | [], k, v => [(k, v)]
  | (k0, v0) :: rest, k, v =>
    if k0 = k then (k0, v) :: rest else (k0, v0) :: dictInsert rest k v

/-- The loop body of `load_tokens_with_emails` (lines 33-37):
`parts = line.strip().split(',')`; when `len(parts) == 2` the pair is put
into the mapping, otherwise the line is skipped. -/
def tokenLineStep (m : List (String × String)) (line : String) : List (String × String) :=
  match pySplitComma (pyStrip line) with
  | [token, email] => dictInsert m token email
  | _ => m

/-- `load_tokens_with_emails` (lines 28-43).  For each line of `token.txt`,
`line.strip().split(',')` must yield exactly two fields `token,email`;
other lines are skipped.  `FileNotFoundError` (input `none`) and any other
error are logged and yield the empty mapping. -/
def load_tokens_with_emails (file : Option (List String)) : List (String × String) :=
  match file with
  | none => []
  | some lines => lines.foldl tokenLineStep []

/-- `load_proxies` (lines 45-55): the stripped non-empty lines of
`proxy.txt`; a missing file yields `[]`. -/
def load_proxies (file : Option (List String)) : List String :=
  match file with
  | none => []
  | some lines => (lines.map pyStrip).filter (· ≠ "")

/-- The positional proxy lookup `proxies[i] if i < len(proxies) else None`
used in `run_node` (lines 265 and 271). -/
def proxy_for (proxies : List String) (i : Nat) : Option String :=
  if h : i < proxies.length then some (proxies.get ⟨i, h⟩) else none

/-- `get_ip` (lines 57-70).  Result: the `ip` field of the JSON body on a
200 response (the field may be absent), `none` otherwise.  The second
component records whether the handler slept `RETRY_DELAY` seconds, which
happens exactly in the `except` branch (any exception), not on a non-200
response. -/
def get_ip (o : HttpOutcome (Option String)) : Option String × Bool :=
  match o with
  | .exn _ => (none, true)
  | .resp s ip => (if s == 200 then ip else none, false)

/-- Python truthiness of the optional IP string: `not ip` holds for `None`
and also for the empty string `""`. -/
def pyTruthy (ip : Option String) : Bool :=
  match ip with
  | none => false
  | some s => s ≠ ""

/-- `send_heartbeat` (lines 72-95).  Returns whether the heartbeat POST was
issued.  `if not ip: return` (line 76) is a truthiness check: the function
returns at once without a POST when `get_ip` yields `None` and also when
it yields the empty string.  Otherwise the POST is issued and its outcome
is ignored: status 200 falls into `pass`, status 429 returns silently, any
other status falls off the `with` block, and every exception is swallowed
by `except Exception`.  The function is total: no exception propagates to
the caller. -/
def send_heartbeat (ipOutcome : HttpOutcome (Option String))
    (postOutcome : HttpOutcome Unit) : Bool :=
  let ip := (get_ip ipOutcome).1
  if !(pyTruthy ip) then false
  else
    match postOutcome with
    | .exn _ => true
    | .resp s _ => if s == 200 then true else if s == 429 then true else true

/-- `fetch_points` (lines 97-111).  First component: the `points` field of
the JSON body on a 200 response, `none` otherwise.  Second component:
whether the error was logged and `RETRY_DELAY` slept before returning,
which happens exactly in the `except` branch; a non-200 response falls
through to `return None` with no log and no delay. -/
def fetch_points (o : HttpOutcome (Option Int)) : Option Int × Bool :=
  match o with
  | .exn _ => (none, true)
  | .resp s pts => (if s == 200 then pts else none, false)

/-- What the environment does to one node probe (`session.get` on
`http://{node.ip}` with a 5s timeout in `test_single_node`): either a
response arrives after `elapsedMs` milliseconds (nonnegative, since the
event-loop clock is monotone), or `asyncio.TimeoutError`, or
`aiohttp.ClientConnectorError`, or any other exception. -/
inductive ProbeOutcome where
  | resp (status : Nat) (elapsedMs : Nat)
  | timeout
  | connError
  | otherExn
deriving DecidableEq, Repr

/-- Marker for a Python exception not caught by `test_single_node`'s
`except (asyncio.TimeoutError, aiohttp.ClientConnectorError)` clause. -/
inductive ProbeExn where
  | uncaught
deriving DecidableEq, Repr

/-- `test_single_node` (lines 115-127).  A response gives status `在线`
(online) iff its HTTP status is 200 and then `latency_value` is the
elapsed time, else `-1`; a timeout or connection error is caught and gives
`(-1, 离线)`; any other exception escapes the handler. -/
def test_single_node (node : Node) (o : ProbeOutcome) : Except ProbeExn ProbeResult :=
  match o with
  | .resp status elapsedMs =>
    let st := if status == 200 then Status.online else Status.offline
    let latency_value : Int := if status == 200 then (elapsedMs : Int) else -1
    .ok ⟨node.node_id, node.ip, latency_value, st⟩
  | .timeout => .ok ⟨node.node_id, node.ip, -1, Status.offline⟩
  | .connError => .ok ⟨node.node_id, node.ip, -1, Status.offline⟩
  | .otherExn => .error ProbeExn.uncaught

/-- `asyncio.gather(*tasks)` with the default `return_exceptions=False`:
the list of all task results in input order when every task succeeds, or
the raised exception when one fails (all uncaught exceptions carry the
single marker value `ProbeExn.uncaught`, so which task failed first does
not matter to callers). -/
def gatherE {ε α : Type} : List (Except ε α) → Except ε (List α)
  | [] => .ok []
  | .error e :: _ => .error e
  | .ok r :: rest =>
    match gatherE rest with
    | .error e => .error e
    | .ok rs => .ok (r :: rs)

/-- `test_all_nodes` (lines 113-130): probe every node concurrently and
join with `asyncio.gather`.  `env` tells how the network treats each
node's probe. -/
def test_all_nodes (nodes : List Node) (env : Node → ProbeOutcome) :
    Except ProbeExn (List ProbeResult) :=
  gatherE (nodes.map (fun n => test_single_node n (env n)))

/-- `report_node_result` (lines 132-155).  Returns whether the POST to
`/test` got a 200.  A non-200 response falls off the `with` block and every
exception is swallowed by `except Exception: pass`, so the function is
total: one bad report never raises. -/
def report_node_result (o : HttpOutcome Unit) : Bool :=
  match o with
  | .exn _ => false
  | .resp s _ => s == 200

/-- `report_all_node_results` (lines 157-160): report each result in turn,
sequentially, in list order.  `env i` is the outcome of the i-th POST.
Returns each result paired with whether its report succeeded. -/
def report_all_node_results (results : List ProbeResult) (env : Nat → HttpOutcome Unit) :
    List (ProbeResult × Bool) :=
  match results with
  | [] => []
  | r :: rest =>
    (r, report_node_result (env 0)) :: report_all_node_results rest (fun i => env (i + 1))

/-- `start_testing` (lines 162-176).  First component: whether
`test_all_nodes` was invoked; second: the reports attempted.  The whole
body is wrapped in `try ... except Exception: pass`, so a transport error
on the `/nodes` GET, a non-200 status, or an uncaught probe exception all
end the cycle silently; in the last case probing happened but no report is
made. -/
def start_testing (nodesOutcome : HttpOutcome (List Node))
    (probeEnv : Node → ProbeOutcome) (reportEnv : Nat → HttpOutcome Unit) :
    Bool × List (ProbeResult × Bool) :=
  match nodesOutcome with
  | .exn _ => (false, [])
  | .resp s nodes =>
    if s == 200 then
      match test_all_nodes nodes probeEnv with
      | .error _ => (true, [])
      | .ok results => (true, report_all_node_results results reportEnv)
    else (false, [])

/-- Observable trace of one account's slice of the test branch of
`run_node` (lines 276-279): `start_testing`, then unconditionally
`fetch_points`, then print the score when it is not `None`. -/
structure CycleTrace where
  probed : Bool
  reports : List (ProbeResult × Bool)
  scoreFetched : Bool
  score : Option Int
  scoreDelayed : Bool
deriving DecidableEq, Repr

/-- The per-account body of the test branch of `run_node` (lines 270-279):
`await start_testing(token, proxy)` followed by
`current_points = await fetch_points(token, proxy)`.  `fetch_points` is
called unconditionally, whatever `start_testing` did, so `scoreFetched` is
`true` on every path. -/
def test_step (nodesOutcome : HttpOutcome (List Node))
    (probeEnv : Node → ProbeOutcome) (reportEnv : Nat → HttpOutcome Unit)
    (pointsOutcome : HttpOutcome (Option Int)) : CycleTrace :=
  let st := start_testing nodesOutcome probeEnv reportEnv
  let fp := fetch_points pointsOutcome
  { probed := st.1, reports := st.2, scoreFetched := true,
    score := fp.1, scoreDelayed := fp.2 }

/-- The network environment one account sees during one scheduler tick. -/
structure AccountEnv where
  hbIp : HttpOutcome (Option String)
  hbPost : HttpOutcome Unit
  nodesFetch : HttpOutcome (List Node)
  probe : Node → ProbeOutcome
  report : Nat → HttpOutcome Unit
  points : HttpOutcome (Option Int)

/-- Scheduler state of `run_node` (lines 252-254): the two deadlines and
the one-shot first-heartbeat flag. -/
structure SchedState where
  nextHeartbeat : Nat
  nextTest : Nat
  firstHeartbeat : Bool
deriving DecidableEq, Repr

/-- The `(token, proxy)` pairs produced by
`for i, (token, email) in enumerate(...)` with
`proxy = proxies[i] if i < len(proxies) else None`, starting at index `i`. -/
def accountProxyPairs (proxies : List String) :
    Nat → List (String × String) → List (String × Option String)
  | _, [] => []
  | i, a :: rest => (a.1, proxy_for proxies i) :: accountProxyPairs proxies (i + 1) rest

/-- The heartbeat loop body (lines 264-266): `send_heartbeat` for every
account in order; `env` gives each account's network outcomes. -/
def heartbeatPass (env : Nat → AccountEnv) :
    Nat → List (String × String) → List Bool
  | _, [] => []
  | i, _ :: rest =>
    send_heartbeat (env i).hbIp (env i).hbPost :: heartbeatPass env (i + 1) rest

/-- The test loop body (lines 270-279): `test_step` for every account in
order. -/
def testPass (env : Nat → AccountEnv) :
    Nat → List (String × String) → List CycleTrace
  | _, [] => []
  | i, _ :: rest =>
    test_step (env i).nodesFetch (env i).probe (env i).report (env i).points ::
      testPass env (i + 1) rest

/-- Everything observable in one scheduler tick: which `(token, proxy)`
pairs had each task invoked, and the tasks' traces. -/
structure TickTrace where
  hbInvoked : List (String × Option String)
  hbResults : List Bool
  testInvoked : List (String × Option String)
  testResults : List CycleTrace
deriving Repr

/-- One iteration of the `while True` loop of `run_node` (lines 257-288).
`now` is the single `current_time = datetime.now()` read at the top of the
iteration; both deadline updates use this same value.  Each deadline is
reassigned to `now + interval` once, after its task ran for every account;
otherwise it is untouched. -/
def tick (accounts : List (String × String)) (proxies : List String)
    (env : Nat → AccountEnv) (now : Nat) (s : SchedState) : SchedState × TickTrace :=
  let s1 : SchedState :=
    if s.nextHeartbeat ≤ now then
      ⟨now + HEARTBEAT_INTERVAL, s.nextTest, false⟩
    else s
  let hbInv := if s.nextHeartbeat ≤ now then accountProxyPairs proxies 0 accounts else []
  let hbRes := if s.nextHeartbeat ≤ now then heartbeatPass env 0 accounts else []
  let s2 : SchedState :=
    if s.nextTest ≤ now then
      ⟨s1.nextHeartbeat, now + TEST_INTERVAL, s1.firstHeartbeat⟩
    else s1
  let testInv := if s.nextTest ≤ now then accountProxyPairs proxies 0 accounts else []
  let testRes := if s.nextTest ≤ now then testPass env 0 accounts else []
  (s2, ⟨hbInv, hbRes, testInv, testRes⟩)

/-- The guard at the top of `run_node` (lines 243-246): with an empty
token/email mapping the function logs an error and returns, so the
scheduler loop is entered iff the mapping is non-empty. -/
def run_node_enters (tokenFile : Option (List String)) : Bool :=
  !(load_tokens_with_emails tokenFile).isEmpty

/-- Whether a `ProbeOutcome` is handled by `test_single_node`'s code: a
response, `asyncio.TimeoutError` or `aiohttp.ClientConnectorError`.  Any
other exception escapes its `except` clause. -/
def handledOutcome : ProbeOutcome → Bool
  | .otherExn => false
  | _ => true

/-- Whether the probe got an HTTP response with status 200. -/
def outcomeIs200 : ProbeOutcome → Bool
  | .resp s _ => s == 200
  | _ => false

/-- Whether the probe ended in a timeout or a connection error. -/
def outcomeIsNetFail : ProbeOutcome → Bool
  | .timeout => true
  | .connError => true
  | _ => false

/-- Whether an `Except` value is an exception. -/
def exceptErrored {ε α : Type} : Except ε α → Bool
  | .error _ => true
  | .ok _ => false

/-! ### Helper lemmas -/

theorem mem_keys_dictInsert_self (m : List (String × String)) (k v : String) :
    k ∈ (dictInsert m k v).map Prod.fst := by
  induction m with
  | nil => simp [dictInsert]
  | cons p rest ih =>
    by_cases h : p.1 = k
    · simp [dictInsert, h]
    · simpa [dictInsert, h] using Or.inr ih

theorem mem_keys_dictInsert_of_mem (m : List (String × String)) (k v a : String)
    (ha : a ∈ m.map Prod.fst) : a ∈ (dictInsert m k v).map Prod.fst := by
  induction m with
  | nil => simp at ha
  | cons p rest ih =>
    obtain ⟨k0, v0⟩ := p
    simp only [List.map_cons] at ha
    by_cases h : k0 = k
    · simp only [dictInsert, if_pos h, List.map_cons]
      exact ha
    · simp only [dictInsert, if_neg h, List.map_cons]
      rcases List.mem_cons.mp ha with rfl | h2
      · exact List.mem_cons_self _ _
      · exact List.mem_cons_of_mem _ (ih h2)

theorem mem_keys_tokenLineStep (m : List (String × String)) (line : String) (a : String)
    (ha : a ∈ m.map Prod.fst) : a ∈ (tokenLineStep m line).map Prod.fst := by
  unfold tokenLineStep
  cases h : pySplitComma (pyStrip line) with
  | nil => exact ha
  | cons x xs =>
    cases xs with
    | nil => exact ha
    | cons y ys =>
      cases ys with
      | nil => exact mem_keys_dictInsert_of_mem m x y a ha
      | cons z zs => exact ha

theorem mem_keys_foldl_of_mem (lines : List String) (m : List (String × String)) (a : String)
    (ha : a ∈ m.map Prod.fst) : a ∈ ((lines.foldl tokenLineStep m).map Prod.fst) := by
  induction lines generalizing m with
  | nil => exact ha
  | cons l ls ih => exact ih _ (mem_keys_tokenLineStep m l a ha)

theorem mem_keys_foldl_of_line (lines : List String) (m : List (String × String))
    (line t e : String) (hmem : line ∈ lines)
    (hsplit : pySplitComma (pyStrip line) = [t, e]) :
    t ∈ ((lines.foldl tokenLineStep m).map Prod.fst) := by
  induction lines generalizing m with
  | nil => simp at hmem
  | cons l ls ih =>
    rcases List.mem_cons.mp hmem with rfl | hmem'
    · have hstep : tokenLineStep m line = dictInsert m t e := by
        unfold tokenLineStep
        rw [hsplit]
      simp only [List.foldl_cons, hstep]
      exact mem_keys_foldl_of_mem ls _ t (mem_keys_dictInsert_self m t e)
    · simp only [List.foldl_cons]
      exact ih (tokenLineStep m l) hmem'

theorem tokenLineStep_malformed (m : List (String × String)) (line : String)
    (h : (pySplitComma (pyStrip line)).length ≠ 2) : tokenLineStep m line = m := by
  unfold tokenLineStep
  cases hs : pySplitComma (pyStrip line) with
  | nil => rfl
  | cons x xs =>
    cases xs with
    | nil => rfl
    | cons y ys =>
      cases ys with
      | nil => exact absurd (by simp [hs]) h
      | cons z zs => rfl

theorem foldl_malformed (lines : List String) (m : List (String × String))
    (h : ∀ line ∈ lines, (pySplitComma (pyStrip line)).length ≠ 2) :
    lines.foldl tokenLineStep m = m := by
  induction lines generalizing m with
  | nil => rfl
  | cons l ls ih =>
    simp only [List.foldl_cons]
    rw [tokenLineStep_malformed m l (h l (by simp))]
    exact ih m (fun line hl => h line (by simp [hl]))

theorem report_all_map_fst (results : List ProbeResult) (env : Nat → HttpOutcome Unit) :
    (report_all_node_results results env).map Prod.fst = results := by
  induction results generalizing env with
  | nil => rfl
  | cons r rest ih => simp [report_all_node_results, ih]

theorem report_all_map_snd (results : List ProbeResult) (env : Nat → HttpOutcome Unit) :
    (report_all_node_results results env).map Prod.snd =
      (List.range results.length).map (fun i => report_node_result (env i)) := by
  induction results generalizing env with
  | nil => rfl
  | cons r rest ih =>
    simp only [report_all_node_results, List.map_cons, List.length_cons,
      List.range_succ_eq_map, ih, List.map_map]
    rfl

theorem accountProxyPairs_map_fst (proxies : List String) (i : Nat)
    (accounts : List (String × String)) :
    (accountProxyPairs proxies i accounts).map Prod.fst = accounts.map Prod.fst := by
  induction accounts generalizing i with
  | nil => rfl
  | cons a rest ih => simp [accountProxyPairs, ih]

theorem heartbeatPass_length (env : Nat → AccountEnv) (i : Nat)
    (accounts : List (String × String)) :
    (heartbeatPass env i accounts).length = accounts.length := by
  induction accounts generalizing i with
  | nil => rfl
  | cons a rest ih => simp [heartbeatPass, ih]

theorem testPass_length (env : Nat → AccountEnv) (i : Nat)
    (accounts : List (String × String)) :
    (testPass env i accounts).length = accounts.length := by
  induction accounts generalizing i with
  | nil => rfl
  | cons a rest ih => simp [testPass, ih]

theorem gatherE_ok_forall2 {ε α : Type} (l : List (Except ε α)) (rs : List α)
    (h : gatherE l = .ok rs) :
    List.Forall₂ (fun e r => e = Except.ok r) l rs := by
  induction l generalizing rs with
  | nil =>
    simp only [gatherE, Except.ok.injEq] at h
    subst h
    exact List.Forall₂.nil
  | cons x xs ih =>
    cases x with
    | error e => simp [gatherE] at h
    | ok r =>
      cases h2 : gatherE xs with
      | error e => simp [gatherE, h2] at h
      | ok rs' =>
        simp only [gatherE, h2, Except.ok.injEq] at h
        subst h
        exact List.Forall₂.cons rfl (ih rs' h2)

theorem gatherE_error_of_any {α : Type} (l : List (Except ProbeExn α))
    (h : l.any exceptErrored = true) : gatherE l = .error ProbeExn.uncaught := by
  induction l with
  | nil => simp at h
  | cons x xs ih =>
    cases x with
    | error e =>
      cases e
      rfl
    | ok r =>
      simp only [List.any_cons, exceptErrored, Bool.false_or] at h
      simp [gatherE, ih h]

theorem any_map_comp {α β : Type} (l : List α) (f : α → β) (p : β → Bool) :
    (l.map f).any p = l.any (fun a => p (f a)) := by
  induction l with
  | nil => rfl
  | cons x xs ih => simp [ih]

theorem exceptErrored_test_single_node (n : Node) (o : ProbeOutcome) :
    exceptErrored (test_single_node n o) = !handledOutcome o := by
  cases o <;> rfl

theorem test_single_node_fields (n : Node) (o : ProbeOutcome) (r : ProbeResult)
    (h : test_single_node n o = .ok r) : r.node_id = n.node_id ∧ r.ip = n.ip := by
  cases o with
  | resp s t =>
    simp only [test_single_node, Except.ok.injEq] at h
    rw [← h]
    exact ⟨rfl, rfl⟩
  | timeout =>
    simp only [test_single_node, Except.ok.injEq] at h
    rw [← h]
    exact ⟨rfl, rfl⟩
  | connError =>
    simp only [test_single_node, Except.ok.injEq] at h
    rw [← h]
    exact ⟨rfl, rfl⟩
  | otherExn => simp [test_single_node] at h

theorem test_single_node_handled (n : Node) (o : ProbeOutcome)
    (ho : handledOutcome o = true) :
    ∃ r, test_single_node n o = .ok r ∧ r.node_id = n.node_id ∧ r.ip = n.ip
      ∧ (r.status = Status.online ↔ outcomeIs200 o = true)
      ∧ (outcomeIsNetFail o = true → r.status = Status.offline ∧ r.latency = -1)
      ∧ (r.status = Status.online → 0 ≤ r.latency) := by
  cases o with
  | resp s t =>
    by_cases hs : (s == 200) = true
    · refine ⟨⟨n.node_id, n.ip, (t : Int), Status.online⟩, ?_, rfl, rfl, ?_, ?_, ?_⟩
      · simp [test_single_node, hs]
      · simp [outcomeIs200, hs]
      · intro hf
        simp [outcomeIsNetFail] at hf
      · intro _
        exact Int.natCast_nonneg t
    · refine ⟨⟨n.node_id, n.ip, -1, Status.offline⟩, ?_, rfl, rfl, ?_, ?_, ?_⟩
      · simp [test_single_node, hs]
      · simp [outcomeIs200, hs]
      · intro _
        exact ⟨rfl, rfl⟩
      · intro hon
        simp at hon
  | timeout =>
    refine ⟨⟨n.node_id, n.ip, -1, Status.offline⟩, rfl, rfl, rfl, ?_, ?_, ?_⟩
    · simp [outcomeIs200]
    · intro _
      exact ⟨rfl, rfl⟩
    · intro hon
      simp at hon
  | connError =>
    refine ⟨⟨n.node_id, n.ip, -1, Status.offline⟩, rfl, rfl, rfl, ?_, ?_, ?_⟩
    · simp [outcomeIs200]
    · intro _
      exact ⟨rfl, rfl⟩
    · intro hon
      simp at hon
  | otherExn => simp [handledOutcome] at ho

theorem test_all_nodes_cons_ok (n : Node) (ns : List Node) (env : Node → ProbeOutcome)
    (r : ProbeResult) (rs : List ProbeResult)
    (h1 : test_single_node n (env n) = .ok r)
    (h2 : test_all_nodes ns env = .ok rs) :
    test_all_nodes (n :: ns) env = .ok (r :: rs) := by
  simp only [test_all_nodes, List.map_cons] at h2 ⊢
  rw [h1]
  simp only [gatherE, h2]

/-! ### Concrete sample data for the closed checks -/

/-- Three sample nodes, as a backend could return them from `/nodes`. -/
def sampleNodes : List Node := [⟨"a", "1.1.1.1"⟩, ⟨"b", "2.2.2.2"⟩, ⟨"c", "3.3.3.3"⟩]

/-- Sample network: the probe of node `b` times out, the others answer 200
after 12 ms. -/
def sampleProbeEnv : Node → ProbeOutcome :=
  fun n => if n.ip = "2.2.2.2" then ProbeOutcome.timeout else ProbeOutcome.resp 200 12

/-- Sample network in which every probe times out. -/
def allTimeoutEnv : Node → ProbeOutcome := fun _ => ProbeOutcome.timeout

/-- Sample network in which the probe of node `b` raises an exception that
`test_single_node` does not catch. -/
def badProbeEnv : Node → ProbeOutcome :=
  fun n => if n.ip = "2.2.2.2" then ProbeOutcome.otherExn else ProbeOutcome.resp 200 12

/-- Sample network in which every report POST returns 200. -/
def okReportEnv : Nat → HttpOutcome Unit := fun _ => HttpOutcome.resp 200 ()

/-! ### Claim theorems -/

/-- Claim C1: in every iteration of the scheduler loop, each deadline is
reassigned exactly when the tick time has reached it, and then to exactly
`now + interval` (300 s heartbeat, 1800 s test); the deadlines never move
backwards, and when one moves it jumps by at least its full interval; the
corresponding task is invoked for every configured account, in order,
exactly in the ticks in which its deadline is reassigned — never
per-account. -/
theorem c1_scheduler_deadline_invariant (accounts : List (String × String))
    (proxies : List String) (env : Nat → AccountEnv) (now : Nat) (s : SchedState) :
    ((tick accounts proxies env now s).1.nextHeartbeat =
        if s.nextHeartbeat ≤ now then now + HEARTBEAT_INTERVAL else s.nextHeartbeat)
    ∧ ((tick accounts proxies env now s).1.nextTest =
        if s.nextTest ≤ now then now + TEST_INTERVAL else s.nextTest)
    ∧ ((tick accounts proxies env now s).2.hbInvoked.map Prod.fst =
        if s.nextHeartbeat ≤ now then accounts.map Prod.fst else [])
    ∧ ((tick accounts proxies env now s).2.hbResults.length =
        if s.nextHeartbeat ≤ now then accounts.length else 0)
    ∧ ((tick accounts proxies env now s).2.testInvoked.map Prod.fst =
        if s.nextTest ≤ now then accounts.map Prod.fst else [])
    ∧ ((tick accounts proxies env now s).2.testResults.length =
        if s.nextTest ≤ now then accounts.length else 0)
    ∧ s.nextHeartbeat ≤ (tick accounts proxies env now s).1.nextHeartbeat
    ∧ s.nextTest ≤ (tick accounts proxies env now s).1.nextTest
    ∧ ((tick accounts proxies env now s).1.nextHeartbeat = s.nextHeartbeat
        ∨ s.nextHeartbeat + HEARTBEAT_INTERVAL ≤ (tick accounts proxies env now s).1.nextHeartbeat)
    ∧ ((tick accounts proxies env now s).1.nextTest = s.nextTest
        ∨ s.nextTest + TEST_INTERVAL ≤ (tick accounts proxies env now s).1.nextTest) := by
  by_cases h1 : s.nextHeartbeat ≤ now <;> by_cases h2 : s.nextTest ≤ now <;>
    simp [tick, h1, h2, accountProxyPairs_map_fst, heartbeatPass_length, testPass_length,
      HEARTBEAT_INTERVAL, TEST_INTERVAL] <;> omega

/-- Claim C2, counterexample: the node-list fetch raises a transport error,
so no probing and no reporting happen — yet `run_node` still invokes
`fetch_points` for that account in the same cycle and surfaces the score,
contradicting the claim that no score fetch occurs. -/
theorem c2_counterexample :
    test_step (HttpOutcome.exn NetErr.timeout) allTimeoutEnv okReportEnv
        (HttpOutcome.resp 200 (some 100)) =
      { probed := false, reports := [], scoreFetched := true,
        score := some 100, scoreDelayed := false } := rfl

/-- Claim C2 as amended: if the node-list fetch fails (transport error or
non-200 status), no probing and no reporting occur for that account in
that cycle, and this is the only point where a failure short-circuits
probing and reporting (when the fetch succeeds and no probe raises an
uncaught exception, every result is reported); however the score fetch is
still performed unconditionally afterwards. -/
theorem c2_node_list_failure_aborts_probing :
    (∀ (e : NetErr) (probeEnv : Node → ProbeOutcome) (reportEnv : Nat → HttpOutcome Unit)
        (pointsOutcome : HttpOutcome (Option Int)),
      test_step (HttpOutcome.exn e) probeEnv reportEnv pointsOutcome =
        ⟨false, [], true, (fetch_points pointsOutcome).1, (fetch_points pointsOutcome).2⟩)
    ∧ (∀ (st : Nat) (nodes : List Node) (probeEnv : Node → ProbeOutcome)
        (reportEnv : Nat → HttpOutcome Unit) (pointsOutcome : HttpOutcome (Option Int)),
      st ≠ 200 →
      test_step (HttpOutcome.resp st nodes) probeEnv reportEnv pointsOutcome =
        ⟨false, [], true, (fetch_points pointsOutcome).1, (fetch_points pointsOutcome).2⟩)
    ∧ (∀ (nodes : List Node) (probeEnv : Node → ProbeOutcome)
        (reportEnv : Nat → HttpOutcome Unit) (pointsOutcome : HttpOutcome (Option Int))
        (rs : List ProbeResult),
      test_all_nodes nodes probeEnv = .ok rs →
      test_step (HttpOutcome.resp 200 nodes) probeEnv reportEnv pointsOutcome =
        ⟨true, report_all_node_results rs reportEnv, true,
          (fetch_points pointsOutcome).1, (fetch_points pointsOutcome).2⟩) := by
  refine ⟨fun e probeEnv reportEnv pointsOutcome => rfl, ?_, ?_⟩
  · intro st nodes probeEnv reportEnv pointsOutcome h
    have hb : (st == 200) = false := by simpa using h
    simp [test_step, start_testing, hb]
  · intro nodes probeEnv reportEnv pointsOutcome rs h
    simp [test_step, start_testing, h]

/-- Claim C2 witness for the amended theorem: a 500 on `/nodes` skips
probing and reporting, but `fetch_points` still ran (here it raised, so
the score is absent and the 5 s back-off was taken). -/
theorem c2_amended_witness :
    (500 : Nat) ≠ 200
    ∧ test_step (HttpOutcome.resp 500 ([] : List Node)) allTimeoutEnv okReportEnv
        (HttpOutcome.exn NetErr.connError) =
      { probed := false, reports := [], scoreFetched := true,
        score := none, scoreDelayed := true } :=
  ⟨by decide, by
    exact c2_node_list_failure_aborts_probing.2.1 500 [] allTimeoutEnv okReportEnv
      (HttpOutcome.exn NetErr.connError) (by decide)⟩

/-- Claim C3: when every probe outcome is one the code handles (a response,
a timeout, or a connection error), the prober returns exactly one result
per input node; a result is Online iff its probe's HTTP response status
was 200; a timeout or connection error gives Offline with the sentinel
latency `-1`; and every Online result has nonnegative latency. -/
theorem c3_node_prober (nodes : List Node) (env : Node → ProbeOutcome)
    (h : nodes.all (fun n => handledOutcome (env n)) = true) :
    ∃ rs, test_all_nodes nodes env = .ok rs ∧ rs.length = nodes.length
      ∧ List.Forall₂ (fun (n : Node) (r : ProbeResult) =>
          r.node_id = n.node_id ∧ r.ip = n.ip
          ∧ (r.status = Status.online ↔ outcomeIs200 (env n) = true)
          ∧ (outcomeIsNetFail (env n) = true → r.status = Status.offline ∧ r.latency = -1)
          ∧ (r.status = Status.online → 0 ≤ r.latency)) nodes rs := by
  induction nodes with
  | nil => exact ⟨[], rfl, rfl, List.Forall₂.nil⟩
  | cons n ns ih =>
    simp only [List.all_cons, Bool.and_eq_true] at h
    obtain ⟨rs, hok, hlen, hF⟩ := ih h.2
    obtain ⟨r, hr, hid, hip, hiff, hnf, hnn⟩ := test_single_node_handled n (env n) h.1
    exact ⟨r :: rs, test_all_nodes_cons_ok n ns env r rs hr hok,
      by simp [hlen], List.Forall₂.cons ⟨hid, hip, hiff, hnf, hnn⟩ hF⟩

/-- Claim C3 witness: three nodes, one timing out, two answering 200. -/
theorem c3_witness :
    sampleNodes.all (fun n => handledOutcome (sampleProbeEnv n)) = true
    ∧ ∃ rs, test_all_nodes sampleNodes sampleProbeEnv = .ok rs
        ∧ rs.length = sampleNodes.length
        ∧ List.Forall₂ (fun (n : Node) (r : ProbeResult) =>
            r.node_id = n.node_id ∧ r.ip = n.ip
            ∧ (r.status = Status.online ↔ outcomeIs200 (sampleProbeEnv n) = true)
            ∧ (outcomeIsNetFail (sampleProbeEnv n) = true →
                r.status = Status.offline ∧ r.latency = -1)
            ∧ (r.status = Status.online → 0 ≤ r.latency)) sampleNodes rs :=
  ⟨by decide, c3_node_prober sampleNodes sampleProbeEnv (by decide)⟩

/-- Claim C4: the reporter attempts one report per probe result, in input
order, and the outcome of each report depends only on that report's own
network outcome — a failed report never suppresses the later attempts. -/
theorem c4_result_reporter (results : List ProbeResult) (env : Nat → HttpOutcome Unit) :
    (report_all_node_results results env).map Prod.fst = results
    ∧ (report_all_node_results results env).length = results.length
    ∧ (report_all_node_results results env).map Prod.snd =
        (List.range results.length).map (fun i => report_node_result (env i)) := by
  refine ⟨report_all_map_fst results env, ?_, report_all_map_snd results env⟩
  have h := congrArg List.length (report_all_map_fst results env)
  simpa using h

/-- Claim C5: the heartbeat task posts iff the identity probe yielded a
truthy IP; with no IP (`None`, and likewise the falsy empty string) it
returns silently with no POST; and the whole observable behaviour is
independent of how the heartbeat POST itself turns out (200, 429, or any
exception), with no exception escaping. -/
theorem c5_heartbeat_best_effort (ipo : HttpOutcome (Option String))
    (po po2 : HttpOutcome Unit) :
    send_heartbeat ipo po = pyTruthy (get_ip ipo).1
    ∧ send_heartbeat ipo po = send_heartbeat ipo po2
    ∧ ((get_ip ipo).1 = none ∨ (get_ip ipo).1 = some "" →
        send_heartbeat ipo po = false) := by
  have key : ∀ po' : HttpOutcome Unit,
      send_heartbeat ipo po' = pyTruthy (get_ip ipo).1 := by
    intro po'
    simp only [send_heartbeat]
    cases h : pyTruthy (get_ip ipo).1 with
    | false => simp
    | true =>
      cases po' with
      | exn e => simp
      | resp s u => simp
  refine ⟨key po, (key po).trans (key po2).symm, ?_⟩
  intro h
  rw [key po]
  rcases h with h | h <;> rw [h] <;> rfl

/-- Claim C5 witness: a 200 ipify response whose `ip` field is the empty
string is falsy, so no heartbeat POST is issued. -/
theorem c5_witness :
    ((get_ip (HttpOutcome.resp 200 (some ""))).1 = none
      ∨ (get_ip (HttpOutcome.resp 200 (some ""))).1 = some "")
    ∧ send_heartbeat (HttpOutcome.resp 200 (some "")) (HttpOutcome.resp 200 ()) = false :=
  ⟨Or.inr rfl,
    (c5_heartbeat_best_effort (HttpOutcome.resp 200 (some "")) (HttpOutcome.resp 200 ())
        (HttpOutcome.resp 200 ())).2.2 (Or.inr rfl)⟩

/-- Claim C6, counterexample: a 429 response is a failure, and
`fetch_points` returns absent for it, but with no log and no 5-second
pause (the second component records the log-and-sleep of the `except`
branch, the only place the code sleeps). -/
theorem c6_counterexample :
    fetch_points (HttpOutcome.resp 429 none) = (none, false) := rfl

/-- Claim C6 as amended: `fetch_points` returns the points value on a 200
response carrying the field; on an exception it logs and pauses
`RETRY_DELAY` seconds before returning absent; on a non-200 response (or a
200 response without the field) it returns absent immediately, with no log
and no pause. -/
theorem c6_fetch_points_amended (e : NetErr) (s : Nat) (b : Option Int) :
    fetch_points (HttpOutcome.exn e) = (none, true)
    ∧ fetch_points (HttpOutcome.resp s b) = (if s == 200 then b else none, false)
    ∧ fetch_points (HttpOutcome.resp 200 b) = (b, false) :=
  ⟨rfl, rfl, rfl⟩

/-- Claim C7: a line of the account file that strips and splits into
exactly two comma-separated fields is loaded (its token is a key of the
resulting mapping) no matter what surrounds it; lines that do not split
into exactly two fields contribute nothing (an all-malformed file loads
the empty mapping, and the loader is a total function — nothing raises);
and `run_node` refuses to enter the scheduler loop when the file is absent
or the mapping is empty. -/
theorem c7_account_loading :
    (∀ (lines : List String) (line t e : String), line ∈ lines →
        pySplitComma (pyStrip line) = [t, e] →
        t ∈ (load_tokens_with_emails (some lines)).map Prod.fst)
    ∧ (∀ lines : List String,
        (∀ line ∈ lines, (pySplitComma (pyStrip line)).length ≠ 2) →
        load_tokens_with_emails (some lines) = [])
    ∧ run_node_enters none = false
    ∧ (∀ f : Option (List String),
        load_tokens_with_emails f = [] → run_node_enters f = false) := by
  refine ⟨?_, ?_, rfl, ?_⟩
  · intro lines line t e hmem hsplit
    exact mem_keys_foldl_of_line lines [] line t e hmem hsplit
  · intro lines h
    exact foldl_malformed lines [] h
  · intro f h
    simp [run_node_enters, h]

/-- Claim C7 witness: a well-formed line between two malformed ones is
still loaded. -/
theorem c7_witness :
    ("tok1,mail1" ∈ ["bad", "tok1,mail1", "x,y,z"]
      ∧ pySplitComma (pyStrip "tok1,mail1") = ["tok1", "mail1"])
    ∧ "tok1" ∈ (load_tokens_with_emails (some ["bad", "tok1,mail1", "x,y,z"])).map Prod.fst :=
  ⟨⟨by decide, by decide⟩,
    c7_account_loading.1 ["bad", "tok1,mail1", "x,y,z"] "tok1,mail1" "tok1" "mail1"
      (by decide) (by decide)⟩

/-- Claim C8: an account whose index is at or beyond the end of the proxy
list resolves to no proxy rather than an error, and a missing proxy file
loads the empty proxy list, under which every account connects directly. -/
theorem c8_proxy_binding :
    (∀ (proxies : List String) (i : Nat), proxies.length ≤ i → proxy_for proxies i = none)
    ∧ load_proxies none = []
    ∧ (∀ i : Nat, proxy_for (load_proxies none) i = none) := by
  refine ⟨?_, rfl, ?_⟩
  · intro proxies i h
    exact dif_neg (by omega)
  · intro i
    exact dif_neg (by simp [load_proxies])

/-- Claim C8 witness: index 3 against a one-element proxy list. -/
theorem c8_witness :
    (["p1"] : List String).length ≤ 3 ∧ proxy_for ["p1"] 3 = none :=
  ⟨by decide, c8_proxy_binding.1 ["p1"] 3 (by decide)⟩

/-- Claim C9: whenever the prober returns a result list, it is positionally
aligned with the input node list (same length, i-th result carries the
i-th node's id and ip), and the reporter issues its reports exactly in
that order. -/
theorem c9_order_preservation :
    (∀ (nodes : List Node) (env : Node → ProbeOutcome) (rs : List ProbeResult),
        test_all_nodes nodes env = .ok rs →
        List.Forall₂ (fun (n : Node) (r : ProbeResult) =>
          r.node_id = n.node_id ∧ r.ip = n.ip) nodes rs)
    ∧ (∀ (results : List ProbeResult) (reportEnv : Nat → HttpOutcome Unit),
        (report_all_node_results results reportEnv).map Prod.fst = results) := by
  constructor
  · intro nodes env rs h
    have h2 := gatherE_ok_forall2 _ rs h
    have h3 := List.forall₂_map_left_iff.mp h2
    exact List.Forall₂.imp
      (fun n r hnr => test_single_node_fields n (env n) r hnr) h3
  · intro results reportEnv
    exact report_all_map_fst results reportEnv

/-- Claim C9 witness: the three sample results come back in input order
and are reported in that order. -/
theorem c9_witness :
    test_all_nodes sampleNodes sampleProbeEnv =
      .ok [⟨"a", "1.1.1.1", 12, Status.online⟩, ⟨"b", "2.2.2.2", -1, Status.offline⟩,
        ⟨"c", "3.3.3.3", 12, Status.online⟩]
    ∧ List.Forall₂ (fun (n : Node) (r : ProbeResult) =>
        r.node_id = n.node_id ∧ r.ip = n.ip) sampleNodes
      [⟨"a", "1.1.1.1", 12, Status.online⟩, ⟨"b", "2.2.2.2", -1, Status.offline⟩,
        ⟨"c", "3.3.3.3", 12, Status.online⟩] :=
  ⟨rfl, c9_order_preservation.1 sampleNodes sampleProbeEnv _ rfl⟩

/-- Claim C10: a single node probe converts exactly a timeout or a
connection error into an Offline result with latency -1 and never fails
on a response;
any other exception escapes it, makes the gathered probe set fail as a
whole, and then `start_testing` reports nothing at all for that account in
that cycle while swallowing the exception (it still returns normally). -/
theorem c10_uncaught_probe_exception :
    (∀ node : Node,
        test_single_node node ProbeOutcome.timeout =
          .ok ⟨node.node_id, node.ip, -1, Status.offline⟩
        ∧ test_single_node node ProbeOutcome.connError =
          .ok ⟨node.node_id, node.ip, -1, Status.offline⟩
        ∧ test_single_node node ProbeOutcome.otherExn = .error ProbeExn.uncaught)
    ∧ (∀ (nodes : List Node) (env : Node → ProbeOutcome),
        nodes.any (fun n => !handledOutcome (env n)) = true →
        test_all_nodes nodes env = .error ProbeExn.uncaught
        ∧ ∀ reportEnv : Nat → HttpOutcome Unit,
            start_testing (HttpOutcome.resp 200 nodes) env reportEnv = (true, [])) := by
  constructor
  · intro node
    exact ⟨rfl, rfl, rfl⟩
  · intro nodes env h
    have hmap : (nodes.map (fun n => test_single_node n (env n))).any exceptErrored = true := by
      rw [any_map_comp]
      simpa [exceptErrored_test_single_node] using h
    have herr : test_all_nodes nodes env = .error ProbeExn.uncaught :=
      gatherE_error_of_any _ hmap
    refine ⟨herr, fun reportEnv => ?_⟩
    simp [start_testing, herr]

/-- Claim C10 witness: one probe raising an uncaught exception makes the
whole probe set fail and the cycle report nothing. -/
theorem c10_witness :
    sampleNodes.any (fun n => !handledOutcome (badProbeEnv n)) = true
    ∧ test_all_nodes sampleNodes badProbeEnv = .error ProbeExn.uncaught
    ∧ start_testing (HttpOutcome.resp 200 sampleNodes) badProbeEnv okReportEnv = (true, []) := by
  have h := c10_uncaught_probe_exception.2 sampleNodes badProbeEnv (by decide)
  exact ⟨by decide, h.1, h.2 okReportEnv⟩

end Pipe
